import Mathlib

/-!
Verification development for the Lipona interpreter.

This file gives a shallow embedding of the Lipona language core
(`src/ast.rs`, `src/interpreter.rs`, `src/stdlib.rs`) and proves the
spec claims about it.

Modelling conventions:
* Rust `f64` is modelled by the inductive `F64` below: NaN, the two
  infinities, and finite values carried as exact rationals together with a
  flag remembering the sign of a (signed) zero.  IEEE rounding and
  overflow are abstracted away (finite arithmetic is exact-rational);
  the claims under verification only depend on NaN/zero/infinity
  classification, IEEE comparison, and the error discipline, all of
  which are modelled faithfully.
* Rust `HashMap<String, Value>` is modelled by an association list with
  replace-or-append insertion (keys stay unique); `HashMap` equality is
  modelled order-insensitively exactly like the `PartialEq` impl, and
  iteration order never escapes because display sorts.
* The `&mut self` interpreter state is threaded explicitly: every
  evaluation function returns its result together with the environment
  it leaves behind.
* The call-depth counter of `Interpreter` (incremented on entry to
  `call_function`, bounded by `MAX_CALL_DEPTH`) is modelled by a `fuel`
  parameter counting the remaining depth: `fuel = MAX_CALL_DEPTH -
  call_depth`, so `call_depth + 1 > MAX_CALL_DEPTH` becomes `fuel = 0`.
* `toki`'s write to stdout is an external effect outside the pure model;
  its returned value (`Ala`) is modelled.
-/

namespace Lipona

/-! ## Model of IEEE-754 binary64 (`f64`) -/

/-- Model of an `f64`: NaN, signed infinity, or a finite value.
`fin q z` is the finite value `q`; the flag `z` records the sign bit of a
zero (`fin 0 true` is `-0.0`).  For nonzero `q` the flag is meaningless
junk and every operation below ignores it. -/
inductive F64 where
  | nan : F64
  | inf (neg : Bool) : F64
  | fin (q : ℚ) (negZero : Bool) : F64
deriving DecidableEq

/-- The f64 value `0.0` (positive zero). -/
def f64Zero : F64 := .fin 0 false

def F64.isNaN : F64 → Bool
  | .nan => true
  | _ => false

def F64.isInfinite : F64 → Bool
  | .inf _ => true
  | _ => false

/-- IEEE `==` on f64: NaN compares unequal to everything (itself
included), `0.0 == -0.0`, finite values compare by value. -/
def F64.beq : F64 → F64 → Bool
  | .fin q _, .fin q' _ => q == q'
  | .inf n, .inf n' => n == n'
  | _, _ => false

/-- IEEE `<` on f64: false whenever either side is NaN, `-inf` below
everything else, `+inf` above everything, finite values by value
(so `-0.0 < 0.0` is false). -/
def F64.lt : F64 → F64 → Bool
  | .nan, _ => false
  | _, .nan => false
  | .inf true, .inf true => false
  | .inf true, _ => true
  | .inf false, _ => false
  | .fin _ _, .inf s => !s
  | .fin q _, .fin q' _ => decide (q < q')

/-- IEEE `>`: `a > b` iff `b < a`. -/
def F64.gt (a b : F64) : Bool := F64.lt b a

/-- Unary negation (`-n` in `eval_expr`): flips the sign, including the
sign of zero. -/
def F64.negate : F64 → F64
  | .nan => .nan
  | .inf n => .inf (!n)
  | .fin q z => .fin (-q) (!z)

/-- True iff the rational is negative; used to approximate the IEEE sign
bit of a finite value. -/
def ratSign (q : ℚ) : Bool := decide (q < 0)

/-- f64 addition, abstracted: NaN propagates, opposite infinities give
NaN, finite addition is exact-rational (no rounding/overflow); the sign
of a resulting zero is approximated. -/
def F64.add : F64 → F64 → F64
  | .nan, _ => .nan
  | _, .nan => .nan
  | .inf s, .inf t => if s = t then .inf s else .nan
  | .inf s, .fin _ _ => .inf s
  | .fin _ _, .inf t => .inf t
  | .fin a za, .fin b zb => .fin (a + b) (za && zb)

/-- f64 subtraction: `a - b = a + (-b)` (exact in IEEE). -/
def F64.sub (a b : F64) : F64 := F64.add a (F64.negate b)

/-- f64 multiplication, abstracted like `F64.add`
(`inf * 0` is NaN). -/
def F64.mul : F64 → F64 → F64
  | .nan, _ => .nan
  | _, .nan => .nan
  | .inf s, .inf t => .inf (xor s t)
  | .inf s, .fin q _ => if q = 0 then .nan else .inf (xor s (ratSign q))
  | .fin q _, .inf t => if q = 0 then .nan else .inf (xor (ratSign q) t)
  | .fin a _, .fin b _ => .fin (a * b) (xor (ratSign a) (ratSign b))

/-- f64 division, abstracted: NaN propagates, `inf/inf` and `0/0` are
NaN, division by a finite nonzero value is exact-rational.  (The
interpreter raises `DivisionByZero` before ever dividing by a zero, so
the zero-divisor branch is unreachable from `eval_binary`.) -/
def F64.div : F64 → F64 → F64
  | .nan, _ => .nan
  | _, .nan => .nan
  | .inf _, .inf _ => .nan
  | .inf s, .fin q _ => .inf (xor s (ratSign q))
  | .fin q _, .inf s => .fin 0 (xor (ratSign q) s)
  | .fin a _, .fin b _ =>
    if b = 0 then (if a = 0 then .nan else .inf (xor (ratSign a) false))
    else .fin (a / b) (xor (ratSign a) (ratSign b))

/-- Maximum safe integer exactly representable in f64 (`2^53`),
`F64_SAFE_INT_MAX` in `interpreter.rs`. -/
def F64_SAFE_INT_MAX : ℚ := 9007199254740992

/-- Embed a machine-size natural number as an f64 (exact in the model). -/
def natToF64 (n : Nat) : F64 := .fin n false

/-! ## AST (`src/ast.rs`) -/

/-- Binary operators (`BinOp`). -/
inductive BinOp where
  | add | sub | mul | div | gt | lt | ge | le | eq
deriving DecidableEq

mutual
/-- Expression AST node (`Expr`). -/
inductive Expr where
  | number (n : F64)
  | templateString (parts : List StringPart)
  | boolLit (b : Bool)
  | var (name : String)
  | neg (e : Expr)
  | binary (left : Expr) (op : BinOp) (right : Expr)
  | funcCall (name : String) (args : List Expr)

/-- A part of a template string (`StringPart`). -/
inductive StringPart where
  | literal (s : String)
  | interpolation (e : Expr)
end

/-- Statement AST node (`Stmt`); `Block = Vec<Stmt>` is `List Stmt`. -/
inductive Stmt where
  | assign (target : String) (value : Expr)
  | ifS (cond : Expr) (thenBlock : List Stmt) (elseBlock : Option (List Stmt))
  | whileS (cond : Expr) (body : List Stmt)
  | funcDef (name : String) (params : List String) (body : List Stmt)
  | ret (e : Expr)
  | exprStmt (e : Expr)

/-! ## Runtime values (`Value` in `src/interpreter.rs`) -/

/-- Runtime value.  `map` models `HashMap<String, Value>` as an
association list with unique keys. -/
inductive Value where
  | number (n : F64)
  | str (s : String)
  | bool
  | list (items : List Value)
  | map (entries : List (String × Value))
  | ala
  | function (params : List String) (body : List Stmt)

/-- `Value::is_truthy`. -/
def Value.isTruthy : Value → Bool
  | .bool => true
  | .ala => false
  | .number n => !n.isNaN && !(F64.beq n f64Zero)
  | .str s => !s.isEmpty
  | .list l => !l.isEmpty
  | .map m => !m.isEmpty
  | .function _ _ => true

/-- `Value::type_name`. -/
def typeName : Value → String
  | .number _ => "nanpa"
  | .str _ => "sitelen"
  | .bool => "lon"
  | .list _ => "kulupu"
  | .map _ => "nasin"
  | .ala => "ala"
  | .function _ _ => "ilo"

/-! ### Structural equality (`#[derive(PartialEq)] for Value`)

The derived `PartialEq` compares f64 with IEEE `==`, `Vec` pointwise,
`HashMap` by length plus per-key lookup, and `Function` bodies
structurally (the derived AST equality, again with IEEE `==` on number
literals). -/

mutual
/-- Derived structural equality on expressions, with IEEE `==` on the
embedded f64 literals. -/
def exprBeq : Expr → Expr → Bool
  | .number a, .number b => F64.beq a b
  | .templateString ps, .templateString qs => partsBeq ps qs
  | .boolLit a, .boolLit b => a == b
  | .var a, .var b => a == b
  | .neg a, .neg b => exprBeq a b
  | .binary l1 o1 r1, .binary l2 o2 r2 => exprBeq l1 l2 && o1 == o2 && exprBeq r1 r2
  | .funcCall n1 a1, .funcCall n2 a2 => n1 == n2 && exprsBeq a1 a2
  | _, _ => false

def exprsBeq : List Expr → List Expr → Bool
  | [], [] => true
  | e :: es, f :: fs => exprBeq e f && exprsBeq es fs
  | _, _ => false

def partBeq : StringPart → StringPart → Bool
  | .literal a, .literal b => a == b
  | .interpolation a, .interpolation b => exprBeq a b
  | _, _ => false

def partsBeq : List StringPart → List StringPart → Bool
  | [], [] => true
  | p :: ps, q :: qs => partBeq p q && partsBeq ps qs
  | _, _ => false
end

mutual
/-- Derived structural equality on statements. -/
def stmtBeq : Stmt → Stmt → Bool
  | .assign t1 v1, .assign t2 v2 => t1 == t2 && exprBeq v1 v2
  | .ifS c1 t1 e1, .ifS c2 t2 e2 => exprBeq c1 c2 && blockBeq t1 t2 && optBlockBeq e1 e2
  | .whileS c1 b1, .whileS c2 b2 => exprBeq c1 c2 && blockBeq b1 b2
  | .funcDef n1 p1 b1, .funcDef n2 p2 b2 => n1 == n2 && p1 == p2 && blockBeq b1 b2
  | .ret e1, .ret e2 => exprBeq e1 e2
  | .exprStmt e1, .exprStmt e2 => exprBeq e1 e2
  | _, _ => false

def blockBeq : List Stmt → List Stmt → Bool
  | [], [] => true
  | s :: b, t :: c => stmtBeq s t && blockBeq b c
  | _, _ => false

def optBlockBeq : Option (List Stmt) → Option (List Stmt) → Bool
  | none, none => true
  | some b, some c => blockBeq b c
  | _, _ => false
end

/-- Lookup in an association-list map (`HashMap::get`). -/
def mapLookup (k : String) : List (String × Value) → Option Value
  | [] => none
  | (k2, v) :: rest => if k2 == k then some v else mapLookup k rest

/-- Insert into an association-list map (`HashMap::insert`): replaces an
existing key in place or appends; keeps keys unique. -/
def mapInsert (k : String) (v : Value) : List (String × Value) → List (String × Value)
  | [] => [(k, v)]
  | (k2, w) :: rest => if k2 == k then (k, v) :: rest else (k2, w) :: mapInsert k v rest

mutual
/-- `Value::PartialEq`: same-variant, by value; `HashMap` equality is
same length plus every key of the left map present with an equal value
on the right. -/
def valueBeq : Value → Value → Bool
  | .number a, .number b => F64.beq a b
  | .str a, .str b => a == b
  | .bool, .bool => true
  | .list xs, .list ys => valueListBeq xs ys
  | .map m1, .map m2 => m1.length == m2.length && mapEntriesSub m1 m2
  | .ala, .ala => true
  | .function ps1 b1, .function ps2 b2 => ps1 == ps2 && blockBeq b1 b2
  | _, _ => false

def valueListBeq : List Value → List Value → Bool
  | [], [] => true
  | x :: xs, y :: ys => valueBeq x y && valueListBeq xs ys
  | _, _ => false

def mapEntriesSub : List (String × Value) → List (String × Value) → Bool
  | [], _ => true
  | (k, v) :: rest, m2 => mapFindBeq k v m2 && mapEntriesSub rest m2

def mapFindBeq (k : String) (v : Value) : List (String × Value) → Bool
  | [] => false
  | (k2, v2) :: rest => if k2 == k then valueBeq v v2 else mapFindBeq k v rest
end

/-! ## Display (`impl Display for Value`) -/

/-- Display of an f64 (`write!("{}", n as i64)` for whole numbers within
`±2^53`, plain float formatting otherwise).  Non-integral finite values
are rendered as `num/den`, an abstraction of Rust's shortest-roundtrip
float formatting (no claim depends on that branch). -/
def displayF64 : F64 → String
  | .nan => "NaN"
  | .inf neg => if neg then "-inf" else "inf"
  | .fin q _ =>
    if q.den = 1 ∧ -F64_SAFE_INT_MAX ≤ q ∧ q ≤ F64_SAFE_INT_MAX then toString q.num
    else if q.den = 1 then toString q.num
    else toString q.num ++ "/" ++ toString q.den

mutual
/-- `impl Display for Value`.  The Map arm renders each entry as
`"k: v"`, sorts the rendered strings ascending (Rust `Vec::sort`;
UTF-8 byte order equals code-point order, so Lean's `String` order is
the same), and joins with `", "` inside braces. -/
def displayValue : Value → String
  | .number n => displayF64 n
  | .str s => s
  | .bool => "lon"
  | .list items => "[" ++ String.intercalate ", " (displayList items) ++ "]"
  | .map m =>
    "\x7b" ++ String.intercalate ", " (List.insertionSort (fun a b => a ≤ b) (displayEntries m)) ++ "\x7d"
  | .ala => "ala"
  | .function ps _ => "<ilo(" ++ String.intercalate ", " ps ++ ")>"

def displayList : List Value → List String
  | [] => []
  | v :: vs => displayValue v :: displayList vs

def displayEntries : List (String × Value) → List String
  | [] => []
  | (k, v) :: rest => (k ++ ": " ++ displayValue v) :: displayEntries rest
end

/-! ## Environment (`Environment` in `src/interpreter.rs`)

The Rust `Vec<HashMap<String, Value>>` stores the global frame first and
always searches from the innermost (last) frame; we store the frames
innermost-first, so `scopes.head` is Rust's `scopes.last()` and the
global frame is the last element of our list. -/

/-- A scope frame: association list modelling `HashMap<String, Value>`. -/
abbrev Frame := List (String × Value)

/-- Environment: stack of scopes, innermost first, never empty. -/
structure Env where
  scopes : List Frame

/-- `Environment::new`: a single empty (global) scope. -/
def Env.new : Env := ⟨[[]]⟩

def scopesGet (name : String) : List Frame → Option Value
  | [] => none
  | f :: rest =>
    match mapLookup name f with
    | some v => some v
    | none => scopesGet name rest

/-- `Environment::get`: search frames innermost to outermost. -/
def Env.get (env : Env) (name : String) : Option Value := scopesGet name env.scopes

/-- `Environment::define`: insert into the innermost frame.  (Rust
`expect`s a nonempty stack; the empty case is unreachable and modelled
by creating the frame.) -/
def Env.define (env : Env) (name : String) (v : Value) : Env :=
  match env.scopes with
  | [] => ⟨[[(name, v)]]⟩
  | f :: rest => ⟨mapInsert name v f :: rest⟩

def scopesSet (name : String) (v : Value) : List Frame → Option (List Frame)
  | [] => none
  | f :: rest =>
    if (mapLookup name f).isSome then some (mapInsert name v f :: rest)
    else
      match scopesSet name v rest with
      | some rest2 => some (f :: rest2)
      | none => none

/-- `Environment::set`: overwrite the innermost existing binding, else
define in the innermost frame. -/
def Env.set (env : Env) (name : String) (v : Value) : Env :=
  match scopesSet name v env.scopes with
  | some s => ⟨s⟩
  | none => env.define name v

/-- `Environment::push_scope`. -/
def Env.pushScope (env : Env) : Env := ⟨[] :: env.scopes⟩

/-- `Environment::pop_scope`: pops the innermost frame, refusing to pop
the global one. -/
def Env.popScope (env : Env) : Env :=
  match env.scopes with
  | _ :: g :: rest => ⟨g :: rest⟩
  | s => ⟨s⟩

/-- The global (outermost) frame, `saved_scopes[0]` in
`isolate_for_function` (empty-stack case unreachable). -/
def Env.globalFrame (env : Env) : Frame := env.scopes.getLast?.getD []

/-! ## Standard library (`src/stdlib.rs` and the stdlib source file) -/

/-- The thirteen registered builtin names (`StdLib::new`). -/
def stdlibNames : List String :=
  ["toki", "nanpa_sin", "nanpa_len", "sitelen_len", "sitelen_sama",
   "kulupu_sin", "kulupu_len", "kulupu_ken", "kulupu_lon", "kulupu_aksen",
   "nasin_sin", "nasin_ken", "nasin_lon"]

/-- `StdLib::has_function`. -/
def hasFunction (name : String) : Bool := stdlibNames.contains name

/-! Runtime errors (`RuntimeError`); `usize` payloads become `Nat`, the
`&'static str` / `String` payloads become `String`. -/

inductive RuntimeError where
  | undefinedVariable (name : String)
  | undefinedFunction (name : String)
  | divisionByZero
  | typeError (expected : String) (got : String)
  | wrongArity (name : String) (expected : Nat) (got : Nat)
  | indexOutOfBounds (index : Nat) (len : Nat)
  | infiniteLoop
  | stackOverflow
deriving DecidableEq

/-- Is `fract() == 0.0`? true exactly for finite integral values
(including both zeros); `NaN.fract()` and `inf.fract()` are NaN, which
is not equal to zero. -/
def f64FractZero : F64 → Bool
  | .fin q _ => q.den == 1
  | _ => false

/-- The integer below a finite integral nonnegative f64. -/
def f64ToNat : F64 → Nat
  | .fin q _ => q.num.toNat
  | _ => 0

/-- `to_index`: convert an f64 to a `usize` index.  Rejects negative,
NaN, infinite and fractional values, and values above the maximum safe
index (`min(2^53, usize::MAX) = 2^53` on a 64-bit host). -/
def toIndex (n : F64) : Except RuntimeError Nat :=
  if F64.lt n f64Zero || n.isNaN || n.isInfinite || !f64FractZero n then
    .error (.typeError "non-negative integer" (displayF64 n))
  else if F64.gt n (.fin F64_SAFE_INT_MAX false) then
    .error (.typeError "index within safe integer range"
      (displayF64 n ++ " exceeds maximum safe index"))
  else .ok (f64ToNat n)

/-- `stdlib_toki`: prints its arguments (an external effect outside this
pure model) and returns `Ala`. -/
def stdlibToki (_args : List Value) : Except RuntimeError Value := .ok .ala

/-- Decimal digit list to a natural number. -/
def digitsToNat (cs : List Char) : Nat :=
  cs.foldl (fun acc c => acc * 10 + (c.toNat - 48)) 0

/-- Model of Rust `str::parse::<f64>` restricted to the plain decimal
forms `[+-]?digits[.digits*]?` (exponents and the textual infinities are
not modelled; no claim depends on this function). -/
def parseF64 (s : String) : Option F64 :=
  let core (cs : List Char) (neg : Bool) : Option F64 :=
    let intPart := cs.takeWhile Char.isDigit
    let rest := cs.dropWhile Char.isDigit
    if intPart.isEmpty then none
    else
      match rest with
      | [] =>
        let q : ℚ := digitsToNat intPart
        some (.fin (if neg then -q else q) neg)
      | '.' :: frac =>
        if frac.all Char.isDigit then
          let q : ℚ := digitsToNat intPart + digitsToNat frac / (10 ^ frac.length : ℚ)
          some (.fin (if neg then -q else q) neg)
        else none
      | _ => none
  match s.toList with
  | '-' :: cs => core cs true
  | '+' :: cs => core cs false
  | cs => core cs false

/-- `stdlib_nanpa_sin`: string (or number) to number. -/
def stdlibNanpaSin : List Value → Except RuntimeError Value
  | [.str s] =>
    match parseF64 s with
    | some n => .ok (.number n)
    | none => .error (.typeError "valid number string" "invalid string")
  | [.number n] => .ok (.number n)
  | [v] => .error (.typeError "sitelen" (typeName v))
  | args => .error (.wrongArity "nanpa_sin" 1 args.length)

/-- Number of base-10 digits in the integer part of `|q|`, modelling the
repeated-division-by-ten loop of `stdlib_nanpa_len` (`|q| < 1` counts as
one digit). -/
def ratIntDigits (q : ℚ) : Nat :=
  let a := |q|
  if a < 1 then 1 else Nat.log 10 a.floor.toNat + 1

/-- `stdlib_nanpa_len`: digit count of the integer part. -/
def stdlibNanpaLen : List Value → Except RuntimeError Value
  | [.number n] =>
    if n.isNaN || n.isInfinite then
      .error (.typeError "finite number" (displayF64 n))
    else
      match n with
      | .fin q _ => .ok (.number (natToF64 (ratIntDigits q)))
      | _ => .ok (.number (natToF64 1))
  | [v] => .error (.typeError "nanpa" (typeName v))
  | args => .error (.wrongArity "nanpa_len" 1 args.length)

/-- `stdlib_sitelen_len`: Unicode scalar count of a string. -/
def stdlibSitelenLen : List Value → Except RuntimeError Value
  | [.str s] => .ok (.number (natToF64 s.length))
  | [v] => .error (.typeError "sitelen" (typeName v))
  | args => .error (.wrongArity "sitelen_len" 1 args.length)

/-- `stdlib_sitelen_sama`: string equality, `True`/`Nil` valued. -/
def stdlibSitelenSama : List Value → Except RuntimeError Value
  | [.str a, .str b] => .ok (if a == b then .bool else .ala)
  | [.str _, v] => .error (.typeError "sitelen" (typeName v))
  | [v, _] => .error (.typeError "sitelen" (typeName v))
  | args => .error (.wrongArity "sitelen_sama" 2 args.length)

/-- `stdlib_kulupu_sin`: build a list from the arguments. -/
def stdlibKulupuSin (args : List Value) : Except RuntimeError Value := .ok (.list args)

/-- `stdlib_kulupu_len`: list length. -/
def stdlibKulupuLen : List Value → Except RuntimeError Value
  | [.list items] => .ok (.number (natToF64 items.length))
  | [v] => .error (.typeError "kulupu" (typeName v))
  | args => .error (.wrongArity "kulupu_len" 1 args.length)

/-- `stdlib_kulupu_ken`: read element `i`, `Nil` when out of range
(`items[index]` is `getD` under the `index < len` guard). -/
def stdlibKulupuKen : List Value → Except RuntimeError Value
  | [.list items, .number i] =>
    match toIndex i with
    | .error e => .error e
    | .ok idx =>
      if items.length ≤ idx then .ok .ala
      else .ok (items.getD idx .ala)
  | [.list _, v] => .error (.typeError "nanpa" (typeName v))
  | [v, _] => .error (.typeError "kulupu" (typeName v))
  | args => .error (.wrongArity "kulupu_ken" 2 args.length)

/-- `stdlib_kulupu_lon`: write element `i` into a clone of the list;
out of range raises `IndexOutOfBounds`. -/
def stdlibKulupuLon : List Value → Except RuntimeError Value
  | [.list items, .number i, x] =>
    match toIndex i with
    | .error e => .error e
    | .ok idx =>
      if items.length ≤ idx then .error (.indexOutOfBounds idx items.length)
      else .ok (.list (items.set idx x))
  | [.list _, v, _] => .error (.typeError "nanpa" (typeName v))
  | [v, _, _] => .error (.typeError "kulupu" (typeName v))
  | args => .error (.wrongArity "kulupu_lon" 3 args.length)

/-- `stdlib_kulupu_aksen`: append to a clone of the list. -/
def stdlibKulupuAksen : List Value → Except RuntimeError Value
  | [.list items, x] => .ok (.list (items ++ [x]))
  | [v, _] => .error (.typeError "kulupu" (typeName v))
  | args => .error (.wrongArity "kulupu_aksen" 2 args.length)

/-- `stdlib_nasin_sin`: empty map. -/
def stdlibNasinSin : List Value → Except RuntimeError Value
  | [] => .ok (.map [])
  | args => .error (.wrongArity "nasin_sin" 0 args.length)

/-- `stdlib_nasin_ken`: map lookup, `Nil` when absent. -/
def stdlibNasinKen : List Value → Except RuntimeError Value
  | [.map m, .str k] =>
    .ok (match mapLookup k m with | some v => v | none => .ala)
  | [.map _, v] => .error (.typeError "sitelen" (typeName v))
  | [v, _] => .error (.typeError "nasin" (typeName v))
  | args => .error (.wrongArity "nasin_ken" 2 args.length)

/-- `stdlib_nasin_lon`: insert into a clone of the map. -/
def stdlibNasinLon : List Value → Except RuntimeError Value
  | [.map m, .str k, x] => .ok (.map (mapInsert k x m))
  | [.map _, v, _] => .error (.typeError "sitelen" (typeName v))
  | [v, _, _] => .error (.typeError "nasin" (typeName v))
  | args => .error (.wrongArity "nasin_lon" 3 args.length)

/-- `StdLib::call`: dispatch by name. -/
def stdlibCall (name : String) (args : List Value) : Except RuntimeError Value :=
  match name with
  | "toki" => stdlibToki args
  | "nanpa_sin" => stdlibNanpaSin args
  | "nanpa_len" => stdlibNanpaLen args
  | "sitelen_len" => stdlibSitelenLen args
  | "sitelen_sama" => stdlibSitelenSama args
  | "kulupu_sin" => stdlibKulupuSin args
  | "kulupu_len" => stdlibKulupuLen args
  | "kulupu_ken" => stdlibKulupuKen args
  | "kulupu_lon" => stdlibKulupuLon args
  | "kulupu_aksen" => stdlibKulupuAksen args
  | "nasin_sin" => stdlibNasinSin args
  | "nasin_ken" => stdlibNasinKen args
  | "nasin_lon" => stdlibNasinLon args
  | _ => .error (.undefinedFunction name)

/-! ## Size measures for termination of the evaluator -/

mutual
def szE : Expr → Nat
  | .number _ => 1
  | .templateString ps => szPs ps + 2
  | .boolLit _ => 1
  | .var _ => 1
  | .neg e => szE e + 1
  | .binary l _ r => szE l + szE r + 1
  | .funcCall _ args => szEs args + 1

def szEs : List Expr → Nat
  | [] => 0
  | e :: es => szE e + szEs es + 1

def szP : StringPart → Nat
  | .literal _ => 1
  | .interpolation e => szE e + 1

def szPs : List StringPart → Nat
  | [] => 0
  | p :: ps => szP p + szPs ps + 1
end

mutual
def szS : Stmt → Nat
  | .assign _ e => szE e + 1
  | .ifS c t e => szE c + szB t + szOB e + 3
  | .whileS c b => szE c + szB b + 3
  | .funcDef _ _ _ => 1
  | .ret e => szE e + 1
  | .exprStmt e => szE e + 1

def szB : List Stmt → Nat
  | [] => 0
  | s :: b => szS s + szB b + 1

def szOB : Option (List Stmt) → Nat
  | none => 0
  | some b => szB b + 1
end

theorem szE_pos (e : Expr) : 0 < szE e := by
  cases e <;> simp [szE]

/-! ## The evaluator (`Interpreter` in `src/interpreter.rs`) -/

/-- Control flow signals (`ControlFlow`). -/
inductive ControlFlow where
  | next
  | ret (v : Value)

/-- `MAX_LOOP_ITERATIONS`: cap on the iterations of a single while loop. -/
def MAX_LOOP_ITERATIONS : Nat := 10000000

/-- `MAX_CALL_DEPTH`: cap on the call stack depth. -/
def MAX_CALL_DEPTH : Nat := 1000

/-- `eval_binary`'s dispatch on `(op, left, right)` after both operands
are evaluated, with the arms in source order.  Note the absence of
`Ge`/`Le` arms: they fall through to the catch-all type error. -/
def evalBinOp (op : BinOp) (lv rv : Value) : Except RuntimeError Value :=
  match op, lv, rv with
  | .add, .number a, .number b => .ok (.number (F64.add a b))
  | .sub, .number a, .number b => .ok (.number (F64.sub a b))
  | .mul, .number a, .number b => .ok (.number (F64.mul a b))
  | .div, .number a, .number b =>
    if F64.beq b f64Zero then .error .divisionByZero
    else .ok (.number (F64.div a b))
  | .add, .str a, .str b => .ok (.str (a ++ b))
  | .gt, .number a, .number b => .ok (if F64.gt a b then .bool else .ala)
  | .lt, .number a, .number b => .ok (if F64.lt a b then .bool else .ala)
  | .eq, a, b => .ok (if valueBeq a b then .bool else .ala)
  | _, _, _ =>
    .error (.typeError "compatible types" (typeName lv ++ " and " ++ typeName rv))

/-- Bind the parameters to the evaluated arguments in the innermost
scope (the `params.iter().zip(evaluated_args)` loop). -/
def bindParams (pairs : List (String × Value)) (env : Env) : Env :=
  pairs.foldl (fun e pv => e.define pv.1 pv.2) env

mutual
/-- `Interpreter::eval_expr`.  The environment is threaded explicitly;
`fuel` is the remaining call depth. -/
def evalExpr : Nat → Expr → Env → Except RuntimeError Value × Env
  | _, .number n, env => (.ok (.number n), env)
  | fuel, .templateString ps, env =>
    match evalParts fuel ps env with
    | (.ok s, env1) => (.ok (.str s), env1)
    | (.error e, env1) => (.error e, env1)
  | _, .boolLit b, env => (.ok (if b then .bool else .ala), env)
  | _, .var name, env =>
    match env.get name with
    | some v => (.ok v, env)
    | none => (.error (.undefinedVariable name), env)
  | fuel, .neg e, env =>
    match evalExpr fuel e env with
    | (.ok (.number n), env1) => (.ok (.number (F64.negate n)), env1)
    | (.ok v, env1) => (.error (.typeError "nanpa" (typeName v)), env1)
    | (.error er, env1) => (.error er, env1)
  | fuel, .binary l op r, env =>
    match evalExpr fuel l env with
    | (.error er, env1) => (.error er, env1)
    | (.ok lv, env1) =>
      match evalExpr fuel r env1 with
      | (.error er, env2) => (.error er, env2)
      | (.ok rv, env2) => (evalBinOp op lv rv, env2)
  | fuel, .funcCall name args, env => callFn fuel name args env
termination_by fuel e _ => (fuel, szE e, 0)
decreasing_by
  all_goals simp_wf
  all_goals try simp [szE, szEs, szP, szPs, szS, szB, szOB]
  all_goals first
    | (apply Prod.Lex.left; omega)
    | (apply Prod.Lex.right; apply Prod.Lex.left; omega)
    | (apply Prod.Lex.right; apply Prod.Lex.right; omega)

/-- `Interpreter::eval_template_string`: concatenate literal fragments
and the display form of each interpolated value, left to right. -/
def evalParts : Nat → List StringPart → Env → Except RuntimeError String × Env
  | _, [], env => (.ok "", env)
  | fuel, .literal s :: rest, env =>
    match evalParts fuel rest env with
    | (.ok acc, env1) => (.ok (s ++ acc), env1)
    | (.error e, env1) => (.error e, env1)
  | fuel, .interpolation e :: rest, env =>
    match evalExpr fuel e env with
    | (.error er, env1) => (.error er, env1)
    | (.ok v, env1) =>
      match evalParts fuel rest env1 with
      | (.ok acc, env2) => (.ok (displayValue v ++ acc), env2)
      | (.error er, env2) => (.error er, env2)
termination_by fuel ps _ => (fuel, szPs ps, 0)
decreasing_by
  all_goals simp_wf
  all_goals try simp [szE, szEs, szP, szPs, szS, szB, szOB]
  all_goals first
    | (apply Prod.Lex.left; omega)
    | (apply Prod.Lex.right; apply Prod.Lex.left; omega)
    | (apply Prod.Lex.right; apply Prod.Lex.right; omega)

/-- `Interpreter::eval_args`: evaluate arguments left to right,
short-circuiting on the first error. -/
def evalArgs : Nat → List Expr → Env → Except RuntimeError (List Value) × Env
  | _, [], env => (.ok [], env)
  | fuel, e :: rest, env =>
    match evalExpr fuel e env with
    | (.error er, env1) => (.error er, env1)
    | (.ok v, env1) =>
      match evalArgs fuel rest env1 with
      | (.ok vs, env2) => (.ok (v :: vs), env2)
      | (.error er, env2) => (.error er, env2)
termination_by fuel es _ => (fuel, szEs es, 0)
decreasing_by
  all_goals simp_wf
  all_goals try simp [szE, szEs, szP, szPs, szS, szB, szOB]
  all_goals first
    | (apply Prod.Lex.left; omega)
    | (apply Prod.Lex.right; apply Prod.Lex.left; omega)
    | (apply Prod.Lex.right; apply Prod.Lex.right; omega)

/-- `Interpreter::call_function` plus `call_function_inner`: check the
depth cap, then resolve stdlib first; a user function is looked up in
the environment, arity-checked, its arguments evaluated, and its body
run in an isolated environment (global frame clone plus a fresh scope
with the parameters), after which the saved scopes are restored. -/
def callFn : Nat → String → List Expr → Env → Except RuntimeError Value × Env
  | 0, _, _, env => (.error .stackOverflow, env)
  | fuel + 1, name, args, env =>
    if hasFunction name then
      match evalArgs fuel args env with
      | (.error e, env1) => (.error e, env1)
      | (.ok vs, env1) => (stdlibCall name vs, env1)
    else
      match env.get name with
      | none => (.error (.undefinedFunction name), env)
      | some (Value.function ps body) =>
        if ps.length ≠ args.length then
          (.error (.wrongArity name ps.length args.length), env)
        else
          match evalArgs fuel args env with
          | (.error e, env1) => (.error e, env1)
          | (.ok vs, env1) =>
            let saved := env1.scopes
            let envBody := bindParams (ps.zip vs) (Env.pushScope ⟨[env1.globalFrame]⟩)
            match execBlockCur fuel body envBody with
            | (.ok (.ret v), _) => (.ok v, ⟨saved⟩)
            | (.ok .next, _) => (.ok .ala, ⟨saved⟩)
            | (.error e, _) => (.error e, ⟨saved⟩)
      | some v => (.error (.typeError "ilo" (typeName v)), env)
termination_by fuel _ _ _ => (fuel, 0, 0)
decreasing_by
  all_goals simp_wf
  all_goals try simp [szE, szEs, szP, szPs, szS, szB, szOB]
  all_goals first
    | (apply Prod.Lex.left; omega)
    | (apply Prod.Lex.right; apply Prod.Lex.left; omega)
    | (apply Prod.Lex.right; apply Prod.Lex.right; omega)

/-- `Interpreter::exec_stmt`. -/
def execStmt : Nat → Stmt → Env → Except RuntimeError ControlFlow × Env
  | fuel, .assign target value, env =>
    match evalExpr fuel value env with
    | (.ok v, env1) => (.ok .next, env1.set target v)
    | (.error e, env1) => (.error e, env1)
  | fuel, .ifS cond thenB elseB, env =>
    match evalExpr fuel cond env with
    | (.error e, env1) => (.error e, env1)
    | (.ok cv, env1) => execIf fuel cv.isTruthy thenB elseB env1
  | fuel, .whileS cond body, env => execWhile fuel cond body MAX_LOOP_ITERATIONS env
  | _, .funcDef name ps body, env => (.ok .next, env.define name (.function ps body))
  | fuel, .ret e, env =>
    match evalExpr fuel e env with
    | (.ok v, env1) => (.ok (.ret v), env1)
    | (.error er, env1) => (.error er, env1)
  | fuel, .exprStmt e, env =>
    match evalExpr fuel e env with
    | (.ok _, env1) => (.ok .next, env1)
    | (.error er, env1) => (.error er, env1)
termination_by fuel s _ => (fuel, szS s, 0)
decreasing_by
  all_goals simp_wf
  all_goals try simp [szE, szEs, szP, szPs, szS, szB, szOB]
  all_goals first
    | (apply Prod.Lex.left; omega)
    | (apply Prod.Lex.right; apply Prod.Lex.left; omega)
    | (apply Prod.Lex.right; apply Prod.Lex.right; omega)

/-- The branch selection of `Stmt::If` after the condition has been
evaluated: truthy runs the then-block, otherwise the else-block when
present. -/
def execIf : Nat → Bool → List Stmt → Option (List Stmt) → Env →
    Except RuntimeError ControlFlow × Env
  | fuel, true, thenB, _, env => execBlock fuel thenB env
  | fuel, false, _, some b, env => execBlock fuel b env
  | _, false, _, none, env => (.ok .next, env)
termination_by fuel _ t e _ => (fuel, szB t + szOB e + 2, 0)
decreasing_by
  all_goals simp_wf
  all_goals try simp [szE, szEs, szP, szPs, szS, szB, szOB]
  all_goals first
    | (apply Prod.Lex.left; omega)
    | (apply Prod.Lex.right; apply Prod.Lex.left; omega)
    | (apply Prod.Lex.right; apply Prod.Lex.right; omega)

/-- The `Stmt::While` loop: evaluate the condition, then hand over to
`execWhileBody`.  `remaining` counts the body executions still allowed
before the iteration cap fires: it starts at `MAX_LOOP_ITERATIONS`, and
a truthy condition with no budget left raises `InfiniteLoop` (in Rust:
`iterations` counts up and the error fires when
`iterations > MAX_LOOP_ITERATIONS`, right before what would be body
execution number `MAX_LOOP_ITERATIONS + 1`). -/
def execWhile : Nat → Expr → List Stmt → Nat → Env → Except RuntimeError ControlFlow × Env
  | fuel, cond, body, remaining, env =>
    match evalExpr fuel cond env with
    | (.error e, env1) => (.error e, env1)
    | (.ok cv, env1) => execWhileBody fuel cond body remaining cv.isTruthy env1
termination_by fuel c b r _ => (fuel, szE c + szB b + 2, 2 * r + 1)
decreasing_by
  all_goals simp_wf
  all_goals try simp [szE, szEs, szP, szPs, szS, szB, szOB]
  all_goals first
    | (apply Prod.Lex.left; omega)
    | (apply Prod.Lex.right; apply Prod.Lex.left; omega)
    | (apply Prod.Lex.right; apply Prod.Lex.right; omega)

/-- One while iteration, given the truthiness of the condition just
evaluated: a falsy condition ends the loop, a truthy one with exhausted
budget raises `InfiniteLoop`, otherwise the body runs and a normal
completion loops again with one less unit of budget. -/
def execWhileBody : Nat → Expr → List Stmt → Nat → Bool → Env →
    Except RuntimeError ControlFlow × Env
  | _, _, _, _, false, env => (.ok .next, env)
  | _, _, _, 0, true, env => (.error .infiniteLoop, env)
  | fuel, cond, body, r + 1, true, env =>
    match execBlock fuel body env with
    | (.ok (.ret v), env2) => (.ok (.ret v), env2)
    | (.ok .next, env2) => execWhile fuel cond body r env2
    | (.error e, env2) => (.error e, env2)
termination_by fuel c b r _ _ => (fuel, szE c + szB b + 2, 2 * r)
decreasing_by
  all_goals simp_wf
  all_goals try simp [szE, szEs, szP, szPs, szS, szB, szOB]
  all_goals first
    | (apply Prod.Lex.left; omega)
    | (apply Prod.Lex.right; apply Prod.Lex.left; omega)
    | (apply Prod.Lex.right; apply Prod.Lex.right; omega)

/-- `Interpreter::exec_block`: push a scope, run the statements, pop the
scope (also on error). -/
def execBlock : Nat → List Stmt → Env → Except RuntimeError ControlFlow × Env
  | fuel, b, env =>
    match execBlockCur fuel b env.pushScope with
    | (res, env1) => (res, env1.popScope)
termination_by fuel b _ => (fuel, szB b + 1, 0)
decreasing_by
  all_goals simp_wf
  all_goals try simp [szE, szEs, szP, szPs, szS, szB, szOB]
  all_goals first
    | (apply Prod.Lex.left; omega)
    | (apply Prod.Lex.right; apply Prod.Lex.left; omega)
    | (apply Prod.Lex.right; apply Prod.Lex.right; omega)

/-- `Interpreter::exec_block_in_current_scope`: run statements until the
first return signal or error. -/
def execBlockCur : Nat → List Stmt → Env → Except RuntimeError ControlFlow × Env
  | _, [], env => (.ok .next, env)
  | fuel, s :: rest, env =>
    match execStmt fuel s env with
    | (.ok (.ret v), env1) => (.ok (.ret v), env1)
    | (.ok .next, env1) => execBlockCur fuel rest env1
    | (.error e, env1) => (.error e, env1)
termination_by fuel b _ => (fuel, szB b, 0)
decreasing_by
  all_goals simp_wf
  all_goals try simp [szE, szEs, szP, szPs, szS, szB, szOB]
  all_goals first
    | (apply Prod.Lex.left; omega)
    | (apply Prod.Lex.right; apply Prod.Lex.left; omega)
    | (apply Prod.Lex.right; apply Prod.Lex.right; omega)
end

/-! ## Expression evaluation never disturbs the caller's environment

Expressions only read the environment; the one superficially mutating
case is a user-function call, which isolates the scope stack and
restores the saved scopes on every exit path, leaving the environment
exactly as it was after argument evaluation. -/

theorem envInvariant :
    (∀ fuel e env, (evalExpr fuel e env).2 = env) ∧
    (∀ fuel name args env, (callFn fuel name args env).2 = env) ∧
    (∀ (_fuel : Nat) (_b : List Stmt) (_env : Env), True) ∧
    (∀ (_fuel : Nat) (_s : Stmt) (_env : Env), True) ∧
    (∀ (_fuel : Nat) (_c : Expr) (_b : List Stmt) (_r : Nat) (_env : Env), True) ∧
    (∀ (_fuel : Nat) (_c : Expr) (_b : List Stmt) (_r : Nat) (_t : Bool) (_env : Env), True) ∧
    (∀ (_fuel : Nat) (_b : List Stmt) (_env : Env), True) ∧
    (∀ (_fuel : Nat) (_t : Bool) (_b : List Stmt) (_e : Option (List Stmt)) (_env : Env), True) ∧
    (∀ fuel es env, (evalArgs fuel es env).2 = env) ∧
    (∀ fuel ps env, (evalParts fuel ps env).2 = env) := by
  apply evalExpr.mutual_induct <;> intros <;> try trivial
  all_goals simp_all [evalExpr, callFn, evalArgs, evalParts]
  all_goals split <;> rfl

theorem evalExpr_env (fuel : Nat) (e : Expr) (env : Env) :
    (evalExpr fuel e env).2 = env := envInvariant.1 fuel e env

theorem callFn_env (fuel : Nat) (name : String) (args : List Expr) (env : Env) :
    (callFn fuel name args env).2 = env := envInvariant.2.1 fuel name args env

theorem evalArgs_env (fuel : Nat) (es : List Expr) (env : Env) :
    (evalArgs fuel es env).2 = env := envInvariant.2.2.2.2.2.2.2.2.1 fuel es env

theorem evalParts_env (fuel : Nat) (ps : List StringPart) (env : Env) :
    (evalParts fuel ps env).2 = env := envInvariant.2.2.2.2.2.2.2.2.2 fuel ps env

/-! ## Environment lemmas -/

theorem mapLookup_insert (x k : String) (v : Value) (f : List (String × Value)) :
    mapLookup x (mapInsert k v f) = if k = x then some v else mapLookup x f := by
  induction f with
  | nil => simp [mapInsert, mapLookup]
  | cons kv rest ih =>
    obtain ⟨k2, w⟩ := kv
    by_cases hk : k2 = k
    · subst hk
      by_cases hx : k2 = x <;> simp [mapInsert, mapLookup, hx]
    · by_cases hx : k2 = x
      · subst hx
        have : ¬ k = k2 := fun h => hk h.symm
        simp [mapInsert, mapLookup, hk, this]
      · simp [mapInsert, mapLookup, hk, hx, ih]

theorem bindParams_scopes (pairs : List (String × Value)) (f : Frame) (rest : List Frame) :
    ∃ g : Frame, (bindParams pairs ⟨f :: rest⟩).scopes = g :: rest ∧
      ∀ x, x ∉ pairs.map Prod.fst → mapLookup x g = mapLookup x f := by
  induction pairs generalizing f with
  | nil => exact ⟨f, rfl, fun _ _ => rfl⟩
  | cons kv ps ih =>
    obtain ⟨k, v⟩ := kv
    have step : bindParams ((k, v) :: ps) ⟨f :: rest⟩
        = bindParams ps ⟨mapInsert k v f :: rest⟩ := by
      simp [bindParams, Env.define]
    obtain ⟨g, hg, hlook⟩ := ih (mapInsert k v f)
    refine ⟨g, by rw [step]; exact hg, fun x hx => ?_⟩
    have hxk : k ≠ x := by
      intro h
      exact hx (by simp [h])
    have hxps : x ∉ ps.map Prod.fst := by
      intro h
      exact hx (by simp [h])
    rw [hlook x hxps, mapLookup_insert, if_neg hxk]

/-- In the environment a user-function body starts in (parameter scope
over a clone of the global frame), a name that is neither a parameter
nor global is unbound. -/
theorem funcEntryGet_none (ps : List String) (vs : List Value) (g : Frame) (x : String)
    (hx : x ∉ ps) (hg : mapLookup x g = none) :
    (bindParams (ps.zip vs) (Env.pushScope ⟨[g]⟩)).get x = none := by
  have hzip : x ∉ (ps.zip vs).map Prod.fst := by
    intro hmem
    obtain ⟨⟨a, b⟩, hab, hfst⟩ := List.mem_map.1 hmem
    exact hx (hfst ▸ (List.of_mem_zip hab).1)
  obtain ⟨fr, hfr, hlook⟩ := bindParams_scopes (ps.zip vs) [] [g]
  have : (bindParams (ps.zip vs) (Env.pushScope ⟨[g]⟩)).scopes = fr :: [g] := hfr
  simp [Env.get, this, scopesGet, hlook x hzip, mapLookup, hg]

theorem scopesSet_get_self (b : String) (v : Value) (scopes : List Frame) :
    ∀ result, scopesSet b v scopes = some result → scopesGet b result = some v := by
  induction scopes with
  | nil => intro r h; simp [scopesSet] at h
  | cons f rest ih =>
    intro r h
    by_cases hf : (mapLookup b f).isSome
    · simp [scopesSet, hf] at h
      subst h
      simp [scopesGet, mapLookup_insert]
    · simp [scopesSet, hf] at h
      match hrec : scopesSet b v rest with
      | none => rw [hrec] at h; simp at h
      | some rest2 =>
        rw [hrec] at h
        simp at h
        subst h
        have hnone : mapLookup b f = none := by
          cases hmb : mapLookup b f with
          | none => rfl
          | some w => rw [hmb] at hf; simp at hf
        simp [scopesGet, hnone, ih rest2 hrec]

/-- `env.set b v` makes `b` read back as `v`. -/
theorem envGet_set_self (env : Env) (b : String) (v : Value) :
    (env.set b v).get b = some v := by
  unfold Env.set
  match h : scopesSet b v env.scopes with
  | some s => simpa [Env.get] using scopesSet_get_self b v env.scopes s h
  | none =>
    unfold Env.define
    match env.scopes with
    | [] => simp [Env.get, scopesGet, mapLookup]
    | f :: rest => simp [Env.get, scopesGet, mapLookup_insert]

theorem scopesSet_get_ne (a b : String) (v : Value) (hne : a ≠ b) (scopes : List Frame) :
    ∀ result, scopesSet b v scopes = some result → scopesGet a result = scopesGet a scopes := by
  induction scopes with
  | nil => intro r h; simp [scopesSet] at h
  | cons f rest ih =>
    intro r h
    by_cases hf : (mapLookup b f).isSome
    · simp [scopesSet, hf] at h
      subst h
      simp [scopesGet, mapLookup_insert, Ne.symm hne]
    · simp [scopesSet, hf] at h
      match hrec : scopesSet b v rest with
      | none => rw [hrec] at h; simp at h
      | some rest2 =>
        rw [hrec] at h
        simp at h
        subst h
        simp [scopesGet, ih rest2 hrec]

/-- `env.set b v` does not disturb any other name. -/
theorem envGet_set_ne (env : Env) (a b : String) (v : Value) (hne : a ≠ b) :
    (env.set b v).get a = env.get a := by
  unfold Env.set
  match h : scopesSet b v env.scopes with
  | some s => simpa [Env.get] using scopesSet_get_ne a b v hne env.scopes s h
  | none =>
    unfold Env.define
    match hs : env.scopes with
    | [] => simp [Env.get, scopesGet, mapLookup, Ne.symm hne, hs]
    | f :: rest =>
      simp [Env.get, hs, scopesGet, mapLookup_insert, Ne.symm hne]

/-- `to_index` on a machine natural within the safe range succeeds with
that natural (for either sign-of-zero flag). -/
theorem toIndex_natCast (i : Nat) (z : Bool) (h : (i : ℚ) ≤ F64_SAFE_INT_MAX) :
    toIndex (.fin (i : ℚ) z) = .ok i := by
  have h1 : F64.lt (.fin (i : ℚ) z) f64Zero = false := by
    have : ¬ ((i : ℚ) < 0) := not_lt.2 (by positivity)
    simp [F64.lt, f64Zero, this]
  have h2 : F64.gt (.fin (i : ℚ) z) (.fin F64_SAFE_INT_MAX false) = false := by
    have : ¬ (F64_SAFE_INT_MAX < (i : ℚ)) := not_lt.2 h
    simp [F64.gt, F64.lt, this]
  have h3 : f64FractZero (.fin (i : ℚ) z) = true := by
    simp [f64FractZero, Rat.den_natCast]
  simp [toIndex, h1, h2, h3, F64.isNaN, F64.isInfinite, f64ToNat, Rat.num_natCast]

/-! ## Claims -/

/-- C1: the spec requires `Binary(Ge, Number a, Number b)` and
`Binary(Le, Number a, Number b)` to yield True-or-Nil like Gt/Lt.  The
evaluator has no `Ge`/`Le` arms: both fall through to the catch-all and
raise `TypeError("compatible types", "nanpa and nanpa")` for every pair
of numbers — here evaluated at the failing input `1 suli_sama 0`
(`Ge`) and `1 lili_sama 0` (`Le`). -/
theorem c1_ge_le_raise_type_error :
    (∀ a b : F64,
      evalBinOp .ge (.number a) (.number b)
        = .error (.typeError "compatible types" "nanpa and nanpa") ∧
      evalBinOp .le (.number a) (.number b)
        = .error (.typeError "compatible types" "nanpa and nanpa")) ∧
    (evalExpr 1 (.binary (.number (.fin 1 false)) .ge (.number (.fin 0 false))) Env.new).1
      = .error (.typeError "compatible types" "nanpa and nanpa") ∧
    (evalExpr 1 (.binary (.number (.fin 1 false)) .le (.number (.fin 0 false))) Env.new).1
      = .error (.typeError "compatible types" "nanpa and nanpa") := by
  refine ⟨fun a b => ⟨rfl, rfl⟩, ?_, ?_⟩ <;> simp [evalExpr, evalBinOp, typeName]

/-- C4 counterexample: the claim says every non-finite number is falsy,
but `is_truthy` only tests `!is_nan && != 0.0`, so positive infinity
(a non-finite number) is truthy. -/
theorem c4_infinity_is_truthy :
    Value.isTruthy (.number (.inf false)) = true ∧
    (F64.inf false).isInfinite = true := by
  exact ⟨rfl, rfl⟩

/-- C4 (amended): `Number n` is truthy iff `n` is not NaN and not equal
to `0.0`: NaN and both zeros are falsy, infinities are truthy, and any
nonzero finite value is truthy. -/
theorem c4_number_truthiness :
    Value.isTruthy (.number .nan) = false ∧
    (∀ z, Value.isTruthy (.number (.fin 0 z)) = false) ∧
    (∀ s, Value.isTruthy (.number (.inf s)) = true) ∧
    (∀ (q : ℚ) (z : Bool), q ≠ 0 → Value.isTruthy (.number (.fin q z)) = true) := by
  refine ⟨rfl, fun z => by simp [Value.isTruthy, F64.beq, F64.isNaN, f64Zero],
    fun s => rfl, fun q z hq => by simp [Value.isTruthy, F64.beq, F64.isNaN, f64Zero, hq]⟩

/-- C4 witness: the nonzero-finite case at `q = 2`. -/
theorem c4_number_truthiness_witness :
    (2 : ℚ) ≠ 0 ∧ Value.isTruthy (.number (.fin 2 false)) = true :=
  ⟨by norm_num, c4_number_truthiness.2.2.2 2 false (by norm_num)⟩

/-- C5: dividing `Number a` by `Number b` raises `DivisionByZero`
exactly when `b == 0.0` in the IEEE sense, i.e. exactly when `b` is one
of the two zeros (any other value, however tiny, divides normally and
returns `Number (a / b)`); the caller's environment is untouched. -/
theorem c5_division_by_zero :
    (∀ (a b : F64) (fuel : Nat) (env : Env),
      evalExpr fuel (.binary (.number a) .div (.number b)) env
        = ((if F64.beq b f64Zero then .error .divisionByZero
            else .ok (.number (F64.div a b))), env)) ∧
    (∀ b : F64, F64.beq b f64Zero = true ↔ ∃ z, b = .fin 0 z) := by
  constructor
  · intro a b fuel env
    simp [evalExpr, evalBinOp]
  · intro b
    cases b with
    | nan => simp [F64.beq, f64Zero]
    | inf s => simp [F64.beq, f64Zero]
    | fin q z =>
      simp only [F64.beq, f64Zero, beq_iff_eq]
      constructor
      · intro h; exact ⟨z, by rw [h]⟩
      · rintro ⟨z2, hz⟩
        cases hz
        rfl

/-- C6: for a valid index value `i` (non-negative, finite, integral,
within the safe-integer range, with either sign-of-zero flag):
`kulupu_ken` returns Nil past the end but the `i`-th element in range,
while `kulupu_lon` raises `IndexOutOfBounds` past the end but returns a
fresh updated list in range. -/
theorem c6_index_bounds (L : List Value) (i : Nat) (z : Bool) (x : Value)
    (hsafe : (i : ℚ) ≤ F64_SAFE_INT_MAX) :
    (L.length ≤ i →
      stdlibCall "kulupu_ken" [.list L, .number (.fin (i : ℚ) z)] = .ok .ala ∧
      stdlibCall "kulupu_lon" [.list L, .number (.fin (i : ℚ) z), x]
        = .error (.indexOutOfBounds i L.length)) ∧
    (i < L.length →
      stdlibCall "kulupu_ken" [.list L, .number (.fin (i : ℚ) z)] = .ok (L.getD i .ala) ∧
      stdlibCall "kulupu_lon" [.list L, .number (.fin (i : ℚ) z), x]
        = .ok (.list (L.set i x))) := by
  have ht := toIndex_natCast i z hsafe
  constructor
  · intro hle
    constructor <;> simp [stdlibCall, stdlibKulupuKen, stdlibKulupuLon, ht, hle]
  · intro hlt
    have hnle : ¬ (L.length ≤ i) := not_le.2 hlt
    constructor <;> simp [stdlibCall, stdlibKulupuKen, stdlibKulupuLon, ht, hnle]

/-- C6 witness: an in-range read and an out-of-range write on concrete
lists. -/
theorem c6_index_bounds_witness :
    stdlibCall "kulupu_ken" [.list [.ala, .bool], .number (.fin 1 false)] = .ok .bool ∧
    stdlibCall "kulupu_lon" [.list [.ala], .number (.fin 3 false), .str "x"]
      = .error (.indexOutOfBounds 3 1) := by
  constructor
  · have h := (c6_index_bounds [.ala, .bool] 1 false (.str "x")
      (by norm_num [F64_SAFE_INT_MAX])).2 (by norm_num)
    simpa using h.1
  · have h := (c6_index_bounds [.ala] 3 false (.str "x")
      (by norm_num [F64_SAFE_INT_MAX])).1 (by norm_num)
    simpa using h.2

/-- C9 counterexample: with keys `"a"` and `"a b"` (one a prefix of the
other), the display sorts the rendered entry strings, and since a space
sorts before `':'` the entry of the longer key comes first: the code
prints `{a b: 2, a: 1}`, not the by-key order `{a: 1, a b: 2}` the
claim demands. -/
theorem c9_map_display_not_key_sorted :
    displayValue (.map [("a", .number (.fin 1 false)), ("a b", .number (.fin 2 false))])
      = "\x7ba b: 2, a: 1\x7d" ∧
    "\x7ba b: 2, a: 1\x7d" ≠ "\x7ba: 1, a b: 2\x7d" := by
  constructor
  · simp [displayValue, displayEntries, displayF64, F64_SAFE_INT_MAX,
      List.insertionSort, List.orderedInsert]
    decide
  · decide

/-- C9 (amended): the display of a map is `{e1, e2, …}` where the `ei`
are the rendered `"k: v"` entry strings in ascending lexicographic
order of the whole entry string (a sorted permutation of the rendered
entries) — which coincides with by-key order except when one key is a
prefix of another and the next character compares differently from
`':'`. -/
theorem c9_map_display_sorted_entries (m : List (String × Value)) :
    displayValue (.map m)
      = "\x7b" ++ String.intercalate ", "
          (List.insertionSort (fun a b => a ≤ b) (displayEntries m)) ++ "\x7d" ∧
    List.Sorted (fun a b : String => a ≤ b)
      (List.insertionSort (fun a b => a ≤ b) (displayEntries m)) ∧
    List.Perm (List.insertionSort (fun a b => a ≤ b) (displayEntries m))
      (displayEntries m) := by
  exact ⟨by simp [displayValue], List.sorted_insertionSort _ _, List.perm_insertionSort _ _⟩

/-- C10: a call expression — as an expression and as an expression
statement — leaves the caller's environment exactly as it was,
whatever the outcome (value, fall-through, or error): the body runs
against a discarded clone of the global frame and the saved scopes are
restored on every exit path. -/
theorem c10_call_preserves_caller_env (fuel : Nat) (name : String) (args : List Expr)
    (env : Env) :
    (evalExpr fuel (.funcCall name args) env).2 = env ∧
    (execStmt fuel (.exprStmt (.funcCall name args)) env).2 = env := by
  have h1 := evalExpr_env fuel (.funcCall name args) env
  refine ⟨h1, ?_⟩
  rcases hv : evalExpr fuel (.funcCall name args) env with ⟨r, env2⟩
  have henv : env2 = env := by rw [hv] at h1; exact h1
  cases r <;> simp [execStmt, hv, henv]

/-- C8: `kulupu_aksen`, `kulupu_lon` and `nasin_lon` return fresh
containers and never mutate their argument: the builtins build new
lists/maps, a call expression leaves the environment (hence every
variable bound to the argument container) untouched, and after
assigning the result to `b`, the variable `a` still evaluates to the
original contents. -/
theorem c8_containers_immutable (L : List Value) (x v : Value)
    (M : List (String × Value)) (k : String) (i : Nat) (env : Env) (fuel : Nat)
    (a b : String) (e : Expr)
    (hsafe : (i : ℚ) ≤ F64_SAFE_INT_MAX) (hi : i < L.length)
    (ha : env.get a = some (.list L))
    (he : evalExpr fuel e env = (.ok x, env))
    (hab : a ≠ b) :
    stdlibCall "kulupu_aksen" [.list L, x] = .ok (.list (L ++ [x])) ∧
    stdlibCall "kulupu_lon" [.list L, .number (.fin (i : ℚ) false), x]
      = .ok (.list (L.set i x)) ∧
    stdlibCall "nasin_lon" [.map M, .str k, v] = .ok (.map (mapInsert k v M)) ∧
    evalExpr (fuel + 1) (.funcCall "kulupu_aksen" [.var a, e]) env
      = (.ok (.list (L ++ [x])), env) ∧
    execStmt (fuel + 1) (.assign b (.funcCall "kulupu_aksen" [.var a, e])) env
      = (.ok .next, env.set b (.list (L ++ [x]))) ∧
    (env.set b (.list (L ++ [x]))).get a = some (.list L) := by
  have hcall : evalExpr (fuel + 1) (.funcCall "kulupu_aksen" [.var a, e]) env
      = (.ok (.list (L ++ [x])), env) := by
    simp [evalExpr, callFn, evalArgs, hasFunction, stdlibNames, ha, he,
      stdlibCall, stdlibKulupuAksen]
  refine ⟨by simp [stdlibCall, stdlibKulupuAksen], ?_, by simp [stdlibCall, stdlibNasinLon],
    hcall, ?_, ?_⟩
  · have hnle : ¬ (L.length ≤ i) := not_le.2 hi
    simp [stdlibCall, stdlibKulupuLon, toIndex_natCast i false hsafe, hnle]
  · simp [execStmt, hcall]
  · rw [envGet_set_ne env a b _ hab]
    exact ha

/-- C8 witness: concrete instantiation with `a` bound to `[1]` in a
local scope below the global one. -/
theorem c8_containers_immutable_witness :
    (stdlibCall "kulupu_aksen" [.list [.number (.fin 1 false)], .bool]
      = .ok (.list [.number (.fin 1 false), .bool])) ∧
    ((Env.set ⟨[[("a", .list [.number (.fin 1 false)])], []]⟩ "b"
        (.list [.number (.fin 1 false), .bool])).get "a"
      = some (.list [.number (.fin 1 false)])) := by
  have h := c8_containers_immutable [.number (.fin 1 false)] .bool .ala [] "k" 0
    ⟨[[("a", .list [.number (.fin 1 false)])], []]⟩ 0 "a" "b" (.boolLit true)
    (by norm_num [F64_SAFE_INT_MAX]) (by norm_num)
    (by rfl) (by simp [evalExpr]) (by decide)
  exact ⟨by simpa using h.1, by simpa using h.2.2.2.2.2⟩

/-- C2: calling a user-defined function whose body begins by reading a
name `x` that is neither a parameter nor bound in the global frame at
call time raises `UndefinedVariable x` — whatever the caller's local
scopes bind (in particular even when `x` is bound in a local scope of
the caller). -/
theorem c2_function_scope_isolation (fuel : Nat) (env : Env) (fname x : String)
    (ps : List String) (restBody : List Stmt) (args : List Expr) (vs : List Value)
    (hstd : hasFunction fname = false)
    (hf : env.get fname = some (.function ps (.ret (.var x) :: restBody)))
    (hlen : ps.length = args.length)
    (hargs : (evalArgs fuel args env).1 = .ok vs)
    (hxp : x ∉ ps)
    (hxg : mapLookup x env.globalFrame = none) :
    (evalExpr (fuel + 1) (.funcCall fname args) env).1
      = .error (.undefinedVariable x) := by
  have hargs2 : evalArgs fuel args env = (.ok vs, env) := by
    have henv := evalArgs_env fuel args env
    rcases h : evalArgs fuel args env with ⟨r, env2⟩
    rw [h] at henv hargs
    simp at henv hargs
    rw [henv, hargs]
  have hget := funcEntryGet_none ps vs env.globalFrame x hxp hxg
  simp [evalExpr, callFn, hstd, hf, hlen, hargs2, execBlockCur, execStmt, hget]

/-- C2 witness: the caller's innermost scope binds `x`, the global frame
binds only `f`; calling `f` and reading `x` in its body still fails. -/
theorem c2_function_scope_isolation_witness :
    (evalExpr 1 (.funcCall "f" [.boolLit true])
        ⟨[[("x", .number (.fin 5 false))],
          [("f", .function ["p"] [.ret (.var "x")])]]⟩).1
      = .error (.undefinedVariable "x") := by
  have h := c2_function_scope_isolation 0
    ⟨[[("x", .number (.fin 5 false))], [("f", .function ["p"] [.ret (.var "x")])]]⟩
    "f" "x" ["p"] [] [.boolLit true] [.bool]
    (by decide) (by rfl) (by rfl) (by simp [evalArgs, evalExpr]) (by decide) (by rfl)
  simpa using h

/-- C3: when the callee name is a registered stdlib builtin, the call
evaluates the arguments and dispatches to the builtin — the environment
is never consulted for the name, so a user-defined function of the same
name (hypothesis `huser`) is ignored. -/
theorem c3_stdlib_shadows_user_functions (fuel : Nat) (name : String) (args : List Expr)
    (env : Env) (vs : List Value) (psu : List String) (bu : List Stmt)
    (hstd : hasFunction name = true)
    (huser : env.get name = some (.function psu bu))
    (hargs : (evalArgs fuel args env).1 = .ok vs) :
    evalExpr (fuel + 1) (.funcCall name args) env = (stdlibCall name vs, env) := by
  have hargs2 : evalArgs fuel args env = (.ok vs, env) := by
    have henv := evalArgs_env fuel args env
    rcases h : evalArgs fuel args env with ⟨r, env2⟩
    rw [h] at henv hargs
    simp at henv hargs
    rw [henv, hargs]
  simp [evalExpr, callFn, hstd, hargs2]

/-- C3 witness: the program defines its own `kulupu_len` returning 99,
yet `kulupu_len e (kulupu_sin e (1, 2))` still answers 2 (the builtin
list length). -/
theorem c3_stdlib_shadows_user_functions_witness :
    evalExpr 2 (.funcCall "kulupu_len" [.funcCall "kulupu_sin"
        [.number (.fin 1 false), .number (.fin 2 false)]])
      ⟨[[("kulupu_len", .function ["x"] [.ret (.number (.fin 99 false))])]]⟩
    = (.ok (.number (.fin 2 false)),
       ⟨[[("kulupu_len", .function ["x"] [.ret (.number (.fin 99 false))])]]⟩) := by
  have h := c3_stdlib_shadows_user_functions 1 "kulupu_len"
    [.funcCall "kulupu_sin" [.number (.fin 1 false), .number (.fin 2 false)]]
    ⟨[[("kulupu_len", .function ["x"] [.ret (.number (.fin 99 false))])]]⟩
    [.list [.number (.fin 1 false), .number (.fin 2 false)]]
    ["x"] [.ret (.number (.fin 99 false))]
    (by decide) (by rfl)
    (by simp [evalArgs, evalExpr, callFn, hasFunction, stdlibNames,
          stdlibCall, stdlibKulupuSin])
  simpa [stdlibCall, stdlibKulupuLen, natToF64] using h

/-- A while loop whose condition always evaluates to a truthy value and
whose body always completes normally exhausts any remaining iteration
budget and ends in `InfiniteLoop`. -/
theorem execWhile_exhausts (fuel : Nat) (cond : Expr) (body : List Stmt)
    (hcond : ∀ e : Env, ∃ w, (evalExpr fuel cond e).1 = .ok w ∧ w.isTruthy = true)
    (hbody : ∀ e : Env, ∃ e2, execBlock fuel body e = (.ok .next, e2)) :
    ∀ (r : Nat) (env : Env), (execWhile fuel cond body r env).1 = .error .infiniteLoop := by
  intro r
  induction r with
  | zero =>
    intro env
    obtain ⟨w, hw, htr⟩ := hcond env
    have henv := evalExpr_env fuel cond env
    rcases hh : evalExpr fuel cond env with ⟨res, env2⟩
    rw [hh] at hw henv
    simp at hw henv
    subst hw
    rw [henv] at hh
    simp [execWhile, execWhileBody, hh, htr]
  | succ r ih =>
    intro env
    obtain ⟨w, hw, htr⟩ := hcond env
    have henv := evalExpr_env fuel cond env
    rcases hh : evalExpr fuel cond env with ⟨res, env2⟩
    rw [hh] at hw henv
    simp at hw henv
    subst hw
    rw [henv] at hh
    obtain ⟨e2, hb⟩ := hbody env
    rw [show execWhile fuel cond body (r + 1) env
        = execWhileBody fuel cond body (r + 1) w.isTruthy env from by simp [execWhile, hh]]
    rw [htr]
    rw [show execWhileBody fuel cond body (r + 1) true env
        = execWhile fuel cond body r e2 from by simp [execWhileBody, hb]]
    exact ih e2

/-- C7: executing a while statement whose condition is truthy on every
evaluation and whose body always completes normally (no error, no
return) terminates with the `InfiniteLoop` error; the iteration budget
the loop burns first is `MAX_LOOP_ITERATIONS = 10,000,000` body
executions. -/
theorem c7_while_loop_cap (fuel : Nat) (cond : Expr) (body : List Stmt) (env : Env)
    (hcond : ∀ e : Env, ∃ w, (evalExpr fuel cond e).1 = .ok w ∧ w.isTruthy = true)
    (hbody : ∀ e : Env, ∃ e2, execBlock fuel body e = (.ok .next, e2)) :
    (execStmt fuel (.whileS cond body) env).1 = .error .infiniteLoop ∧
    MAX_LOOP_ITERATIONS = 10000000 :=
  ⟨by simpa [execStmt] using
      (execWhile_exhausts fuel cond body hcond hbody MAX_LOOP_ITERATIONS env), rfl⟩

/-- C7 witness: `while lon { }` raises `InfiniteLoop`. -/
theorem c7_while_loop_cap_witness :
    (execStmt 0 (.whileS (.boolLit true) []) Env.new).1 = .error .infiniteLoop ∧
    MAX_LOOP_ITERATIONS = 10000000 :=
  c7_while_loop_cap 0 (.boolLit true) [] Env.new
    (fun e => ⟨.bool, by simp [evalExpr], rfl⟩)
    (fun e => ⟨(Env.pushScope e).popScope, by simp [execBlock, execBlockCur]⟩)

end Lipona
